import Mathlib

/-!
Verification of the humanized-browser-automation core (linkedin_bot).

The Go source is shallowly embedded: float64 arithmetic is modelled by exact
rationals (ℚ), `time.Duration` (int64 nanoseconds) by ℤ, and every call into
the randomness source (`rand.Float64`, `rand.Int63n`, `rand.Intn`) is fed from
an explicitly passed stream or sampler, universally quantified in the
theorems, so every possible interleaving of random draws is covered.
Collaborator calls into the browser (navigation, element queries, synthetic
input) are modelled by an oracle structure holding each call's outcome, and
the functions additionally return the trace of browser interactions they
perform.  Sleeps only consume time, which is outside the embedding; a sleep's
sampled duration is still modelled where a claim speaks about it.
-/

namespace LinkedinBot

/-- Truncation toward zero, as Go's conversion from a float64 value to an
integer type (`time.Duration(f)`, `int(f)`), over exact rationals. -/
def goTrunc (q : ℚ) : ℤ := if 0 ≤ q then ⌊q⌋ else ⌈q⌉

/-- Check that `sub` occurs as a contiguous run of `s`, as Go's
`strings.Contains` on the underlying characters. -/
def listHas (sub : List Char) : List Char → Bool
  | [] => sub.isEmpty
  | c :: rest => sub.isPrefixOf (c :: rest) || listHas sub rest

/-- Embedding of Go's `strings.Contains(s, sub)`. -/
def goContains (s sub : String) : Bool := listHas sub.toList s.toList

/-- Left-to-right non-overlapping replacement of `pat` by `rep`, as Go's
`strings.ReplaceAll` for a non-empty pattern (the `pat ≠ []` guard, needed
for termination, makes the — unused here — empty pattern a no-op instead of
Go's insert-everywhere behavior). -/
def replaceAllL (pat rep : List Char) : List Char → List Char
  | [] => []
  | c :: rest =>
    if pat ≠ [] ∧ pat.isPrefixOf (c :: rest) then
      rep ++ replaceAllL pat rep ((c :: rest).drop pat.length)
    else c :: replaceAllL pat rep rest
termination_by l => l.length
decreasing_by
  · rcases pat with _ | ⟨p, ps⟩
    · simp_all
    · simp only [List.length_drop, List.length_cons]
      omega
  · simp only [List.length_cons]
    omega

/-- Embedding of Go's `strings.ReplaceAll(s, pat, rep)`. -/
def goReplaceAll (s pat rep : String) : String :=
  (replaceAllL pat.toList rep.toList s.toList).asString

/-- Embedding of Go's `strings.Split(s, sep)[0]` for a one-character
separator: the prefix of s up to (excluding) the first occurrence. -/
def goFirstField (sep : Char) (s : String) : String :=
  (s.toList.takeWhile (fun c => c ≠ sep)).asString

/-- One Go millisecond in nanoseconds (`time.Millisecond`). -/
def msec : ℤ := 1000000

/-- One Go second in nanoseconds (`time.Second`). -/
def sec : ℤ := 1000000000

namespace stealth

/-- Validity of an abstract sampler standing for `rand.Int63n`: for a positive
bound n it yields a value in `[0, n)`. -/
def ValidSampler (sampler : ℤ → ℤ) : Prop :=
  ∀ n : ℤ, 0 < n → 0 ≤ sampler n ∧ sampler n < n

/-- Model of Go's `rand.Int63n n`: panics (here: `Except.error`) when
`n <= 0`, otherwise returns the sampler's value for bound n. -/
def int63n (sampler : ℤ → ℤ) (n : ℤ) : Except String ℤ :=
  if n ≤ 0 then Except.error "invalid argument to Int63n"
  else Except.ok (sampler n)

/-- Embedding of `stealth.RandomDuration(min, max)`: if `min >= max` the
function returns `min` without consulting the random source, otherwise it
returns `min + rand.Int63n(max - min)`. -/
def RandomDuration (sampler : ℤ → ℤ) (mn mx : ℤ) : Except String ℤ :=
  if mx ≤ mn then Except.ok mn
  else (int63n sampler (mx - mn)).map (fun r => mn + r)

/-- Embedding of `stealth.SleepWithJitter(base, deviation)` (the duration it
samples and then sleeps): negative deviation is clamped to 0, the variation
range is `base ± time.Duration(float64(base)*deviation)` with the lower bound
clamped to non-negative, and the result is sampled by `RandomDuration`. -/
def SleepWithJitter (sampler : ℤ → ℤ) (base : ℤ) (deviation : ℚ) :
    Except String ℤ :=
  let dev := if deviation < 0 then 0 else deviation
  let delta := goTrunc ((base : ℚ) * dev)
  let mn := base - delta
  let mx := base + delta
  let mn := if mn < 0 then 0 else mn
  RandomDuration sampler mn mx

/-- Embedding of the `defaultTimings` table: `[min, max]` duration ranges per
action kind. -/
def defaultTimings (action : String) : Option (ℤ × ℤ) :=
  if action = "click" then some (100 * msec, 300 * msec)
  else if action = "type" then some (50 * msec, 150 * msec)
  else if action = "read" then some (2 * sec, 5 * sec)
  else if action = "scroll" then some (500 * msec, 1500 * msec)
  else if action = "think" then some (1 * sec, 3 * sec)
  else none

/-- Embedding of `stealth.SleepContextual(action, intensity)` (the duration it
samples): looks up the base range of the action kind, falling back to
`[500ms, 1000ms]` for unknown kinds, scales both bounds by `intensity`
(float64 multiplication then Duration truncation), and samples. -/
def SleepContextual (sampler : ℤ → ℤ) (action : String) (intensity : ℚ) :
    Except String ℤ :=
  let config := (defaultTimings action).getD (500 * msec, 1000 * msec)
  let mn := goTrunc ((config.1 : ℚ) * intensity)
  let mx := goTrunc ((config.2 : ℚ) * intensity)
  RandomDuration sampler mn mx

end stealth

namespace utils

/-- Embedding of `utils.RetryWithBackoff`'s loop.  The Go loop runs the
operation for `i = 0 .. maxRetries`; here `left` counts the attempts still
allowed after the current one, so the current attempt index is
`maxRetries - left` and the top-level call starts at `left = maxRetries`.
The operation is modelled as a function from the attempt index to
`none` (success) or `some e` (failure with error e).  The result pairs the
outcome — `Except.error (maxRetries, e)` models the wrapped
"operation failed after %d retries: %w" error — with the list of sleep
durations performed, in order. -/
def retryLoop {E : Type} (op : ℕ → Option E) (maxRetries : ℕ) (maxBackoff : ℤ) :
    ℕ → ℤ → Except (ℕ × E) Unit × List ℤ
  | left, backoff =>
    match op (maxRetries - left) with
    | none => (Except.ok (), [])
    | some e =>
      match left with
      | 0 => (Except.error (maxRetries, e), [])
      | left' + 1 =>
        let nb := if maxBackoff < backoff * 2 then maxBackoff else backoff * 2
        let rest := retryLoop op maxRetries maxBackoff left' nb
        (rest.1, backoff :: rest.2)

/-- Embedding of `utils.RetryWithBackoff(op, maxRetries, initialBackoff,
maxBackoff)`. -/
def RetryWithBackoff {E : Type} (op : ℕ → Option E) (maxRetries : ℕ)
    (initialBackoff maxBackoff : ℤ) : Except (ℕ × E) Unit × List ℤ :=
  retryLoop op maxRetries maxBackoff maxRetries initialBackoff

/-- One step of the backoff recurrence: double, then cap at `maxBackoff`. -/
def backoffStep (maxBackoff b : ℤ) : ℤ :=
  if maxBackoff < b * 2 then maxBackoff else b * 2

/-- List of the first n sleep durations starting from backoff b. -/
def backoffList (maxBackoff : ℤ) : ℤ → ℕ → List ℤ
  | _, 0 => []
  | b, n + 1 => b :: backoffList maxBackoff (backoffStep maxBackoff b) n

end utils

namespace browser

/-- Validity of the stream feeding the `rand.Float64()` calls: every drawn
value lies in `[0, 1)`. -/
def ValidRnd (rnd : ℕ → ℚ) : Prop := ∀ n, 0 ≤ rnd n ∧ rnd n < 1

/-- Trace of one iteration of the `HumanScroll` loop: the signed chunk value
consumed from `remaining`, the jittered sub-step scroll events emitted for
it, and the scroll-back/re-forward pair emitted by the occasional
micro-correction (empty when the correction is not triggered). -/
structure ChunkTrace where
  chunk : ℚ
  substeps : List ℚ
  back : List ℚ

/-- Scroll events of one chunk, in emission order. -/
def ChunkTrace.events (c : ChunkTrace) : List ℚ := c.substeps ++ c.back

/-- All scroll events of a `HumanScroll` run, in emission order. -/
def traceEvents (t : List ChunkTrace) : List ℚ := (t.map ChunkTrace.events).flatten

/-- Chunk selection of one loop iteration: a flick of 100–300 px signed to
match the direction (`(100 + rand.Float64()*200) * (deltaY/|deltaY|)`),
clipped to `remaining` when it would overshoot. -/
def scrollChunk (rnd : ℕ → ℚ) (deltaY remaining : ℚ) (n : ℕ) : ℚ :=
  if |remaining| < |(100 + rnd n * 200) * (deltaY / |deltaY|)| then remaining
  else (100 + rnd n * 200) * (deltaY / |deltaY|)

/-- Sub-step count of a chunk: `int(|chunk|/10)`, at least 5. -/
def scrollSteps (chunk : ℚ) : ℕ :=
  let steps0 := (⌊|chunk| / 10⌋).toNat
  if steps0 < 5 then 5 else steps0

/-- The emitted sub-steps of a chunk: `chunk/steps` scaled by a jitter factor
`0.8 + rand.Float64()*0.4` per step.  Each step consumes two random draws —
the jitter factor at index `n + 2i` and the 10%-hover check at `n + 2i + 1`
(the hover body emits nothing, see `randomHoverJitter`). -/
def scrollSubsteps (rnd : ℕ → ℚ) (n : ℕ) (chunk : ℚ) : List ℚ :=
  (List.range (scrollSteps chunk)).map
    (fun i => chunk / (scrollSteps chunk : ℚ) * (4/5 + rnd (n + 2 * i) * (2/5)))

/-- The occasional scroll-back micro-correction: with probability 10% and
only once total displacement exceeds 300 px, emit `-(chunk*0.5)` and then its
exact negation.  The random draw happens unconditionally (it is the first
operand of Go's `&&`). -/
def scrollBack (rnd : ℕ → ℚ) (n2 : ℕ) (chunk cur2 : ℚ) : List ℚ :=
  if rnd n2 < 1/10 ∧ 300 < |cur2| then [-(chunk * (1/2)), chunk * (1/2)] else []

/-- Embedding of the `HumanScroll` main loop (`for math.Abs(remaining) > 0`),
fuel-indexed; `none` means the fuel ran out before the loop finished.  Index
arithmetic: the chunk draw is at `n`, the sub-steps consume
`n+1 .. n+2*steps`, the scroll-back check draws at `n+1+2*steps`, and the
next iteration starts at `n+2+2*steps`. -/
def humanScrollLoop (rnd : ℕ → ℚ) (deltaY : ℚ) :
    ℕ → ℕ → ℚ → ℚ → Option (List ChunkTrace)
  | 0, _, _, _ => none
  | fuel + 1, n, remaining, currentScroll =>
    if 0 < |remaining| then
      let chunk := scrollChunk rnd deltaY remaining n
      let steps := scrollSteps chunk
      let cur2 := currentScroll + chunk
      match humanScrollLoop rnd deltaY fuel (n + 2 + 2 * steps)
          (remaining - chunk) cur2 with
      | none => none
      | some rest =>
        some (⟨chunk, scrollSubsteps rnd (n + 1) chunk,
          scrollBack rnd (n + 1 + 2 * steps) chunk cur2⟩ :: rest)
    else some []

/-- Embedding of `browser.HumanScroll(deltaY)`: a single scroll event when
`|deltaY| < 100`, otherwise the chunked loop starting from
`remaining = deltaY`, `currentScroll = 0`. -/
def HumanScroll (rnd : ℕ → ℚ) (fuel : ℕ) (deltaY : ℚ) :
    Option (List ChunkTrace) :=
  if |deltaY| < 100 then some [⟨deltaY, [deltaY], []⟩]
  else humanScrollLoop rnd deltaY fuel 0 deltaY 0

/-- Fuel sufficient for `HumanScroll` to finish (proved below): every
non-clipped chunk removes at least 100 px of the remaining distance and a
clipped chunk zeroes it. -/
def scrollFuel (deltaY : ℚ) : ℕ := (⌊|deltaY| / 100⌋).toNat + 2

/-- Input events dispatched into the page by the keystroke synthesizer. -/
inductive TypeEvent where
  | insert (c : Char)
  | backspace

/-- The fixed alphanumeric pool `pickWrongChar` draws wrong characters
from. -/
def alphanum : List Char := "abcdefghijklmnopqrstuvwxyz0123456789".toList

/-- Embedding of `pickWrongChar(correct)`: repeatedly draw
`rand.Intn(len(alphanum))` until the drawn character differs from the
intended one.  The Go loop has no bound, so it is fuel-indexed here (`none`
models the loop spinning forever); the integer stream value is reduced mod
the pool length, which is the identity for an in-range stream.  Returns the
wrong character together with the next unused stream index. -/
def pickWrongChar (rndI : ℕ → ℕ) : ℕ → ℕ → Char → Option (Char × ℕ)
  | 0, _, _ => none
  | fuel + 1, k, correct =>
    if alphanum.getD (rndI k % alphanum.length) 'a' ≠ correct then
      some (alphanum.getD (rndI k % alphanum.length) 'a', k + 1)
    else pickWrongChar rndI fuel (k + 1) correct

/-- Embedding of the per-character loop of `HumanType`.  Each character
draws `rand.Float64()` (float stream index f) for the 5% typo check; in the
typo branch a wrong character is inserted, Backspace is pressed, and the main
flow then inserts the intended character; otherwise the intended character is
inserted directly.  The per-character sleeps and the extra after-space sleep
emit no input events. -/
def humanTypeLoop (rndF : ℕ → ℚ) (rndI : ℕ → ℕ) (wcFuel : ℕ) :
    List Char → ℕ → ℕ → Option (List TypeEvent)
  | [], _, _ => some []
  | c :: rest, f, k =>
    if rndF f < 1/20 then
      match pickWrongChar rndI wcFuel k c with
      | none => none
      | some (w, k2) =>
        (humanTypeLoop rndF rndI wcFuel rest (f + 1) k2).map
          (fun evs => TypeEvent.insert w :: TypeEvent.backspace ::
            TypeEvent.insert c :: evs)
    else
      (humanTypeLoop rndF rndI wcFuel rest (f + 1) k).map
        (fun evs => TypeEvent.insert c :: evs)

/-- Embedding of `browser.HumanType(element, text)`: fails when focusing the
element fails, otherwise types character by character and returns the
dispatched input events in order.  The outer Option is `none` only when the
unbounded `pickWrongChar` retry loop fails to finish within the fuel. -/
def HumanType (rndF : ℕ → ℚ) (rndI : ℕ → ℕ) (wcFuel : ℕ) (focusOk : Bool)
    (text : String) : Option (Except String (List TypeEvent)) :=
  if focusOk then (humanTypeLoop rndF rndI wcFuel text.toList 0 0).map Except.ok
  else some (Except.error "focus failed")

end browser

/-- Trace items for the browser interactions the action-layer workflows
(login, connect, search) perform.  Element lookups and `Has` checks both
appear as `query`; the humanized sub-synthesizers are abstracted to single
`scroll`/`typeText` items, their own event streams being modelled
separately. -/
inductive Ev where
  | navigate (url : String)
  | query (sel : String)
  | scroll (dy : ℚ)
  | move
  | click
  | pressKey (key : String)
  | typeText (s : String)
deriving DecidableEq

/-- Synthetic-input events among the trace items. -/
def Ev.isInput : Ev → Bool
  | Ev.move => true
  | Ev.click => true
  | Ev.pressKey _ => true
  | Ev.typeText _ => true
  | _ => false

namespace connect

/-- Errors `SendConnectionRequest` can return. -/
inductive ConnErr where
  | dailyLimitReached (limit : ℤ)
  | navigationFailed
  | weeklyLimitReached
  | sendButtonNotFound
  | noOptions

/-- Connect service state: the configured daily limit and the in-memory count
of send-equivalent actions performed this run. -/
structure Service where
  dailyLimit : ℤ
  sentCount : ℤ

/-- Outcomes of the collaborator calls `SendConnectionRequest` makes, keyed
by the selector strings the source uses.  `foundX`/`found` are the
XPath/CSS element lookups succeeding, `visible` is the found element's
visibility. -/
structure ConnOracle where
  navigateOk : Bool
  hasPending : Bool
  foundX : String → Bool
  found : String → Bool
  visible : String → Bool
  pageText : String
  hasEmailLabel : Bool
  h1Text : Option String

/-- Ordered probe over a selector list: query each selector in turn, stopping
at the first one that is found and visible (the Go `for … break` over
`directConnectSelectors`/`menuOptions`/`followSelectors`/`msgSelectors`).
Returns the matched selector, if any, and the lookup trace. -/
def probeFirst (o : ConnOracle) : List String → Option String × List Ev
  | [] => (none, [])
  | sel :: rest =>
    if o.foundX sel && o.visible sel then (some sel, [Ev.query sel])
    else
      let r := probeFirst o rest
      (r.1, Ev.query sel :: r.2)

/-- XPath probe for an already-pending connection request. -/
def pendingSel : String := "//button[contains(., \"Pending\")]"

/-- Direct primary-action Connect button probes. -/
def directConnectSelectors : List String :=
  ["//main//button[contains(@class, \"artdeco-button--primary\")][contains(., \"Connect\")]",
   "//button[contains(@aria-label, \"Connect\")][not(contains(@aria-label, \"Invite\"))]"]

/-- More-actions overflow menu button, XPath variant. -/
def moreBtnSelX : String := "//main//button[contains(@aria-label, \"More actions\")]"

/-- More-actions overflow menu button, CSS fallback. -/
def moreBtnSelCss : String := "button[aria-label=\"More actions\"]"

/-- Connect/Add/Invite options probed inside the opened More menu. -/
def menuOptionSelectors : List String :=
  ["//div[contains(@class, \"artdeco-dropdown\")]//span[text()=\"Connect\"]",
   "//div[contains(@class, \"artdeco-dropdown\")]//span[text()=\"Add\"]",
   "//div[contains(@class, \"artdeco-dropdown\")]//span[contains(text(), \"Invite\")]",
   "//div[@role=\"button\"]//span[text()=\"Connect\"]",
   "//div[@role=\"button\"]//span[text()=\"Add\"]"]

/-- Add-a-note affordance probe. -/
def addNoteSel : String :=
  "//button[contains(@aria-label, \"Add a note\") or contains(., \"Add a note\")]"

/-- Primary send control of the invitation dialog. -/
def sendNowSel : String := "button[aria-label=\"Send now\"]"

/-- Generic Send button inside the dialog, XPath fallback. -/
def dialogSendSel : String := "//div[@role=\"dialog\"]//button[contains(., \"Send\")]"

/-- Follow-fallback probes. -/
def followSelectors : List String :=
  ["//button[contains(@aria-label, \"Follow\")]",
   "//button//span[text()=\"Follow\"]",
   "//div[contains(@class, \"artdeco-dropdown\")]//span[text()=\"Follow\"]",
   "//div[@role=\"button\"]//span[text()=\"Follow\"]"]

/-- Message-fallback probes. -/
def msgSelectors : List String :=
  ["//button[contains(@aria-label, \"Message\")]",
   "//main//button[contains(., \"Message\")]"]

/-- Chat-window text box probe used by the Message fallback. -/
def textboxSel : String := "//div[@role=\"textbox\"][@contenteditable=\"true\"]"

/-- The `\x7b\x7bname\x7d\x7d` placeholder of the note template. -/
def namePlaceholder : String := "\x7b\x7bname\x7d\x7d"

/-- Embedding of `connect.tryFallbacks(url, msg)`: try a visible Follow
button (counting a click as an interaction), then a visible Message button —
typing the template with the placeholder replaced by "there" and clicking the
submit control, counting it — and otherwise fail with the
no-options error. -/
def tryFallbacks (o : ConnOracle) (s : Service) (msg : String) :
    Except ConnErr Unit × Service × List Ev :=
  let fr := probeFirst o followSelectors
  match fr.1 with
  | some _ =>
    (Except.ok (), ⟨s.dailyLimit, s.sentCount + 1⟩, fr.2 ++ [Ev.move, Ev.click])
  | none =>
    let mr := probeFirst o msgSelectors
    match mr.1 with
    | some _ =>
      let evs := fr.2 ++ mr.2 ++ [Ev.move, Ev.click, Ev.query textboxSel]
      if o.foundX textboxSel then
        let cleanMsg := goReplaceAll msg namePlaceholder "there"
        let evs2 := evs ++ [Ev.typeText cleanMsg, Ev.query "button[type=\"submit\"]"]
        if o.found "button[type=\"submit\"]" then
          (Except.ok (), ⟨s.dailyLimit, s.sentCount + 1⟩, evs2 ++ [Ev.click])
        else (Except.error ConnErr.noOptions, s, evs2)
      else (Except.error ConnErr.noOptions, s, evs)
    | none => (Except.error ConnErr.noOptions, s, fr.2 ++ mr.2)

/-- Continuation of `SendConnectionRequest` after a Connect control was
found: click it, inspect the page for policy walls, optionally add the
templated note, and click send. -/
def sendAfterConnectClick (o : ConnOracle) (s : Service)
    (messageTemplate : String) (evs : List Ev) :
    Except ConnErr Unit × Service × List Ev :=
  let evs3 := evs ++ [Ev.move, Ev.click, Ev.query "body"]
  if goContains o.pageText "weekly limit" then
    (Except.error ConnErr.weeklyLimitReached, s, evs3)
  else
    let evs4 := evs3 ++ [Ev.query "//label[contains(., \"Email\")]"]
    if o.hasEmailLabel then
      (Except.ok (), s, evs4 ++ [Ev.pressKey "Escape"])
    else if goContains o.pageText "How do you know" then
      (Except.ok (), s, evs4 ++ [Ev.pressKey "Escape"])
    else
      let evs5 := evs4 ++ [Ev.query addNoteSel]
      let evs6 :=
        if o.foundX addNoteSel then
          let name := goFirstField ' ' ((o.h1Text).getD "there")
          let msg := goReplaceAll messageTemplate namePlaceholder name
          evs5 ++ [Ev.click, Ev.query "h1", Ev.query "textarea[name=\x27message\x27]"] ++
            (if o.found "textarea[name=\x27message\x27]" then [Ev.typeText msg] else [])
        else evs5
      let evs7 := evs6 ++ [Ev.query sendNowSel] ++
        (if o.found sendNowSel then [] else [Ev.query dialogSendSel])
      if o.found sendNowSel || o.foundX dialogSendSel then
        (Except.ok (), ⟨s.dailyLimit, s.sentCount + 1⟩, evs7 ++ [Ev.move, Ev.click])
      else (Except.error ConnErr.sendButtonNotFound, s, evs7)

/-- `tryFallbacks` with the events accumulated so far prepended. -/
def tryFallbacksWith (o : ConnOracle) (s : Service) (msg : String)
    (evs : List Ev) : Except ConnErr Unit × Service × List Ev :=
  let r := tryFallbacks o s msg
  (r.1, r.2.1, evs ++ r.2.2)

/-- Embedding of `connect.SendConnectionRequest(profileURL, messageTemplate)`.
The daily-limit precondition is checked before any browser call; afterwards
the flow navigates, waits for the profile, scrolls, skips on a pending
request, probes for a direct Connect button, then inside the More menu, falls
back to Follow/Message, and otherwise clicks Connect, handles the weekly
limit / email-required / how-do-you-know walls, optionally fills the
templated note, and clicks the dialog's send control, incrementing
`sentCount` on success. -/
def SendConnectionRequest (o : ConnOracle) (s : Service)
    (profileURL messageTemplate : String) :
    Except ConnErr Unit × Service × List Ev :=
  if s.dailyLimit ≤ s.sentCount then
    (Except.error (ConnErr.dailyLimitReached s.dailyLimit), s, [])
  else if ¬ o.navigateOk then
    (Except.error ConnErr.navigationFailed, s, [Ev.navigate profileURL])
  else
    -- wait for "main" (outcome only logged), read-pause, scroll, pending check
    let evs0 := [Ev.navigate profileURL, Ev.query "main", Ev.scroll 300,
      Ev.query pendingSel]
    if o.hasPending then (Except.ok (), s, evs0)
    else
      let dr := probeFirst o directConnectSelectors
      let afterDirect := evs0 ++ dr.2
      match dr.1 with
      | some _ => sendAfterConnectClick o s messageTemplate afterDirect
      | none =>
        -- More menu: XPath lookup, then CSS fallback lookup
        let evs1 := afterDirect ++
          (if o.foundX moreBtnSelX then [Ev.query moreBtnSelX]
           else [Ev.query moreBtnSelX, Ev.query moreBtnSelCss])
        if o.foundX moreBtnSelX || o.found moreBtnSelCss then
          let mr := probeFirst o menuOptionSelectors
          let evs2 := evs1 ++ [Ev.move, Ev.click] ++ mr.2
          match mr.1 with
          | some _ => sendAfterConnectClick o s messageTemplate evs2
          | none => tryFallbacksWith o s messageTemplate evs2
        else tryFallbacksWith o s messageTemplate evs1

end connect

namespace auth

/-- Errors the login flow can return. -/
inductive LoginErr where
  | credsMissing
  | navigationFailed
  | usernameNotFound
  | usernameNotVisible
  | inputFailed
  | passwordNotFound
  | passwordNotVisible
  | signInNotFound
  | loginFailed (msg : String)
  | challengeDetected
  | timedOut

/-- Outcomes of the collaborator calls `Login` makes.  The polling loop's
checks may change over time, so they are indexed by the poll tick. -/
structure LoginOracle where
  navFeedOk : Bool
  hasNav : Bool
  hasUsername : Bool
  userFieldPrimary : Bool
  userFieldFallback : Bool
  userVisible : Bool
  userInputOk : Bool
  passFieldPrimary : Bool
  passFieldFallback : Bool
  passVisible : Bool
  passInputOk : Bool
  signInBtn : Bool
  pollFeed : ℕ → Bool
  pollError : ℕ → Bool
  errorElemFound : Bool
  pollErrorText : String
  pollTitle : ℕ → String

/-- The feed URL `Login` first navigates to. -/
def feedURL : String := "https://www.linkedin.com/feed/"

/-- The login page URL. -/
def loginURL : String := "https://www.linkedin.com/login"

/-- The logged-in indicator selector. -/
def loggedInSel : String := ".global-nav__content"

/-- The login error-message selector group. -/
def errorSel : String := "#error-for-username, #error-for-password, .alert-content"

/-- Embedding of the 30s/500ms result-polling loop of `Login`: each tick
checks the success indicator, then the error-message element (extracting its
text when present), then the page title for a security challenge; running out
of ticks is the timeout failure. -/
def loginPoll (o : LoginOracle) : ℕ → ℕ → Except LoginErr Unit × List Ev
  | 0, _ => (Except.error LoginErr.timedOut, [])
  | fuel + 1, tick =>
    if o.pollFeed tick then (Except.ok (), [Ev.query loggedInSel])
    else if o.pollError tick then
      (Except.error (LoginErr.loginFailed
          (if o.errorElemFound then o.pollErrorText else "")),
        [Ev.query loggedInSel, Ev.query errorSel, Ev.query errorSel])
    else if goContains (o.pollTitle tick) "Security Verification" ||
        goContains (o.pollTitle tick) "Challenge" then
      (Except.error LoginErr.challengeDetected,
        [Ev.query loggedInSel, Ev.query errorSel])
    else
      let r := loginPoll o fuel (tick + 1)
      (r.1, Ev.query loggedInSel :: Ev.query errorSel :: r.2)

/-- Embedding of `auth.Login()`.  The flow first navigates to the feed and
checks the logged-in indicator (short-circuiting to success), checks for the
username input and navigates to the login page when absent (that navigation
error being ignored), and only then validates that credentials are present in
the configuration; afterwards it fills both fields (primary selector with
fallback, visibility wait, reliable `Input`), clicks sign-in (the click
happens whether or not the humanized move failed), and polls for the
outcome. -/
def Login (o : LoginOracle) (username password : String) :
    Except LoginErr Unit × List Ev :=
  if ¬ o.navFeedOk then
    (Except.error LoginErr.navigationFailed, [Ev.navigate feedURL])
  else
    let evs0 := [Ev.navigate feedURL, Ev.query loggedInSel]
    if o.hasNav then (Except.ok (), evs0)
    else
      let evs1 := evs0 ++ [Ev.query "#username"] ++
        (if o.hasUsername then [] else [Ev.navigate loginURL])
      if username = "" ∨ password = "" then
        (Except.error LoginErr.credsMissing, evs1)
      else
        let evs2 := evs1 ++ [Ev.query "#username"] ++
          (if o.userFieldPrimary then [] else [Ev.query "input[name=\"session_key\"]"])
        if ¬ (o.userFieldPrimary || o.userFieldFallback) then
          (Except.error LoginErr.usernameNotFound, evs2)
        else if ¬ o.userVisible then
          (Except.error LoginErr.usernameNotVisible, evs2)
        else if ¬ o.userInputOk then
          (Except.error LoginErr.inputFailed, evs2 ++ [Ev.typeText username])
        else
          let evs3 := evs2 ++ [Ev.typeText username, Ev.query "#password"] ++
            (if o.passFieldPrimary then []
             else [Ev.query "input[name=\"session_password\"]"])
          if ¬ (o.passFieldPrimary || o.passFieldFallback) then
            (Except.error LoginErr.passwordNotFound, evs3)
          else if ¬ o.passVisible then
            (Except.error LoginErr.passwordNotVisible, evs3)
          else if ¬ o.passInputOk then
            (Except.error LoginErr.inputFailed, evs3 ++ [Ev.typeText password])
          else
            let evs4 := evs3 ++ [Ev.typeText password,
              Ev.query "button[type=\"submit\"]"]
            if ¬ o.signInBtn then
              (Except.error LoginErr.signInNotFound, evs4)
            else
              let r := loginPoll o 60 0
              (r.1, evs4 ++ [Ev.move, Ev.click] ++ r.2)

end auth

namespace search

/-- Search filter fields. -/
structure Criteria where
  keywords : String
  title : String
  company : String
  location : String

/-- Outcomes of the collaborator calls `SearchPeople` makes, indexed by the
result page being scraped: whether `Elements("a")` succeeded, the `href`
attribute of each anchor on the page (`none` when the attribute is absent),
and the Next-button state. -/
structure SearchOracle where
  navigateOk : Bool
  elementsOk : ℕ → Bool
  anchors : ℕ → List (Option String)
  nextBtn : ℕ → Bool
  nextDisabled : ℕ → Bool

/-- Site origin prefixed to relative profile URLs. -/
def profileOrigin : String := "https://www.linkedin.com"

/-- Profile-link filter: the href must contain the `/in/` marker and must not
be a mini-profile variant. -/
def isProfileHref (val : String) : Bool :=
  goContains val "/in/" && ! goContains val "/mini-profile/"

/-- URL normalization of a matched href: strip the query string
(`strings.Split(val, "?")[0]`) and prefix the origin unless the URL is
already absolute (`strings.HasPrefix(cleanURL, "http")`). -/
def cleanProfileURL (val : String) : String :=
  let c := (val.toList.takeWhile (fun ch => ch ≠ '?')).asString
  if "http".toList.isPrefixOf c.toList then c else profileOrigin ++ c

/-- Scrape of one page's anchor list, threading the seen-set and the
accumulated result list: keep hrefs that pass the profile filter, normalize
them, and append them unless already seen. -/
def scrapeAnchors : List (Option String) → List String → List String →
    List String × List String
  | [], seen, results => (seen, results)
  | none :: rest, seen, results => scrapeAnchors rest seen results
  | some val :: rest, seen, results =>
    if isProfileHref val then
      if seen.contains (cleanProfileURL val) then scrapeAnchors rest seen results
      else scrapeAnchors rest (cleanProfileURL val :: seen)
        (results ++ [cleanProfileURL val])
    else scrapeAnchors rest seen results

/-- Embedding of the page loop of `SearchPeople`: scrape each page (scroll
bursts and sleeps emit no data), then paginate unless this was the last
requested page, the Next button is absent, or it is disabled.  `left + 1`
pages remain including the current one. -/
def searchLoop (o : SearchOracle) : ℕ → ℕ → List String → List String →
    List String
  | 0, _, _, results => results
  | left + 1, page, seen, results =>
    let sr := if o.elementsOk page then scrapeAnchors (o.anchors page) seen results
      else (seen, results)
    if left = 0 then sr.2
    else if ¬ o.nextBtn page then sr.2
    else if o.nextDisabled page then sr.2
    else searchLoop o left (page + 1) sr.1 sr.2

/-- Embedding of `search.SearchPeople(criteria, maxPages)`: join the
non-empty criteria fields with spaces, URL-escape spaces, navigate to the
search URL (failures surfacing as the wrapped navigation error; the
result-wait timeout only logs), then scrape up to maxPages pages. -/
def SearchPeople (o : SearchOracle) (criteria : Criteria) (maxPages : ℕ) :
    Except String (List String) × List Ev :=
  let parts := (if criteria.keywords ≠ "" then [criteria.keywords] else []) ++
    (if criteria.title ≠ "" then [criteria.title] else []) ++
    (if criteria.company ≠ "" then [criteria.company] else []) ++
    (if criteria.location ≠ "" then [criteria.location] else [])
  let fullQuery := String.intercalate " " parts
  let safeQuery := goReplaceAll fullQuery " " "%20"
  let searchURL :=
    "https://www.linkedin.com/search/results/people/?keywords=" ++ safeQuery
  if ¬ o.navigateOk then
    (Except.error "failed to navigate to search", [Ev.navigate searchURL])
  else (Except.ok (searchLoop o maxPages 1 [] []), [Ev.navigate searchURL])

end search

end LinkedinBot

/-! Theorems.  Helper lemmas first, then one theorem per claim (with a
witness where the theorem carries hypotheses). -/

namespace LinkedinBot

theorem randomDuration_isOk (sampler : ℤ → ℤ) (mn mx : ℤ) :
    (stealth.RandomDuration sampler mn mx).isOk = true := by
  unfold stealth.RandomDuration stealth.int63n
  by_cases h : mx ≤ mn
  · simp [h, Except.isOk, Except.toBool]
  · have h2 : ¬ (mx - mn ≤ 0) := by omega
    simp [h, h2, Except.map, Except.isOk, Except.toBool]

theorem randomDuration_mem (sampler : ℤ → ℤ) (hs : stealth.ValidSampler sampler)
    (mn mx : ℤ) (hle : mn ≤ mx) :
    ∃ d : ℤ, stealth.RandomDuration sampler mn mx = Except.ok d ∧
      mn ≤ d ∧ d ≤ mx := by
  unfold stealth.RandomDuration stealth.int63n
  by_cases h : mx ≤ mn
  · exact ⟨mn, by simp [h], le_refl mn, hle⟩
  · have hpos : 0 < mx - mn := by omega
    have h2 : ¬ (mx - mn ≤ 0) := by omega
    obtain ⟨hr0, hr1⟩ := hs (mx - mn) hpos
    exact ⟨mn + sampler (mx - mn), by simp [h, h2, Except.map], by omega, by omega⟩

theorem retryLoop_success {E : Type} (op : ℕ → Option E) (maxRetries : ℕ)
    (maxB : ℤ) (hf : ∀ j, j < maxRetries → (op j).isSome = true)
    (hs : op maxRetries = none) :
    ∀ left, left ≤ maxRetries → ∀ b,
      utils.retryLoop op maxRetries maxB left b =
        (Except.ok (), utils.backoffList maxB b left) := by
  intro left
  induction left with
  | zero =>
    intro _ b
    unfold utils.retryLoop
    simp [hs, utils.backoffList]
  | succ l ih =>
    intro hle b
    have hidx : maxRetries - (l + 1) < maxRetries := by omega
    obtain ⟨e, he⟩ := Option.isSome_iff_exists.mp (hf _ hidx)
    unfold utils.retryLoop
    rw [he]
    dsimp only
    rw [ih (by omega)]
    simp [utils.backoffList, utils.backoffStep]

theorem retryLoop_exhaust {E : Type} (op : ℕ → Option E) (e : ℕ → E)
    (maxRetries : ℕ) (maxB : ℤ) (hall : ∀ i, op i = some (e i)) :
    ∀ left b,
      utils.retryLoop op maxRetries maxB left b =
        (Except.error (maxRetries, e maxRetries), utils.backoffList maxB b left) := by
  intro left
  induction left with
  | zero =>
    intro b
    unfold utils.retryLoop
    simp [hall, utils.backoffList]
  | succ l ih =>
    intro b
    unfold utils.retryLoop
    rw [hall]
    dsimp only
    rw [ih]
    simp [utils.backoffList, utils.backoffStep]

theorem backoffList_eq_capped (maxB : ℤ) :
    ∀ (n : ℕ) (b : ℤ), 0 ≤ b → b ≤ maxB →
      utils.backoffList maxB b n = (List.range n).map (fun k => min (b * 2 ^ k) maxB) := by
  intro n
  induction n with
  | zero => intro b _ _; simp [utils.backoffList]
  | succ m ih =>
    intro b hb0 hble
    rw [List.range_succ_eq_map]
    have hstep0 : 0 ≤ utils.backoffStep maxB b := by
      unfold utils.backoffStep; split <;> omega
    have hstep1 : utils.backoffStep maxB b ≤ maxB := by
      unfold utils.backoffStep; split <;> omega
    simp only [utils.backoffList, List.map_cons, pow_zero, mul_one,
      min_eq_left hble, List.map_map, ih _ hstep0 hstep1]
    congr 1
    refine List.map_congr_left ?_
    intro k _
    simp only [Function.comp]
    unfold utils.backoffStep
    have h2k : (1 : ℤ) ≤ 2 ^ k := one_le_pow₀ (by norm_num)
    split
    · have h1 : maxB ≤ maxB * 2 ^ k := le_mul_of_one_le_right (by omega) h2k
      have h2 : maxB ≤ b * 2 ^ (k + 1) := by
        have : b * 2 ^ (k + 1) = b * 2 * 2 ^ k := by ring
        nlinarith
      rw [min_eq_right h1, min_eq_right h2]
    · have : b * 2 * 2 ^ k = b * 2 ^ (k + 1) := by ring
      rw [this]

/-- C5: the retry wrapper with maxRetries retries.  An operation failing
exactly maxRetries times then succeeding on the final (maxRetries+1-th)
attempt returns success, and the sleeps performed are initialBackoff doubling
on each subsequent retry, each value capped at maxBackoff; for
initialBackoff = 2s, maxBackoff = 10s, maxRetries = 3 the sleep sequence is
exactly 2s, 4s, 8s.  After exhausting all retries the wrapper returns a
wrapped error identifying the retry count and the last underlying error. -/
theorem retryWithBackoff_spec :
    (∀ (E : Type) (op : ℕ → Option E) (maxRetries : ℕ) (initB maxB : ℤ),
      0 ≤ initB → initB ≤ maxB →
      (∀ j, j < maxRetries → (op j).isSome = true) → op maxRetries = none →
      utils.RetryWithBackoff op maxRetries initB maxB =
        (Except.ok (),
         (List.range maxRetries).map (fun k => min (initB * 2 ^ k) maxB))) ∧
    (∀ (E : Type) (op : ℕ → Option E) (e : ℕ → E) (maxRetries : ℕ)
        (initB maxB : ℤ),
      0 ≤ initB → initB ≤ maxB → (∀ i, op i = some (e i)) →
      utils.RetryWithBackoff op maxRetries initB maxB =
        (Except.error (maxRetries, e maxRetries),
         (List.range maxRetries).map (fun k => min (initB * 2 ^ k) maxB))) ∧
    utils.RetryWithBackoff
        (fun i => if i < 3 then some "navigation failed" else none) 3
        (2 * sec) (10 * sec) =
      (Except.ok (), [2 * sec, 4 * sec, 8 * sec]) := by
  refine ⟨?_, ?_, by rfl⟩
  · intro E op maxRetries initB maxB h0 hle hf hs
    unfold utils.RetryWithBackoff
    rw [retryLoop_success op maxRetries maxB hf hs maxRetries (le_refl _) initB,
      backoffList_eq_capped maxB maxRetries initB h0 hle]
  · intro E op e maxRetries initB maxB h0 hle hall
    unfold utils.RetryWithBackoff
    rw [retryLoop_exhaust op e maxRetries maxB hall maxRetries initB,
      backoffList_eq_capped maxB maxRetries initB h0 hle]

/-- Witness for C5 at maxRetries 2, initial backoff 1, cap 5: both the
fail-then-succeed path and the exhaustion path, hypotheses discharged at
concrete inputs. -/
theorem retryWithBackoff_spec_witness :
    utils.RetryWithBackoff (fun i => if i < 2 then some "err" else none) 2 1 5 =
      (Except.ok (), (List.range 2).map (fun k => min (1 * 2 ^ k) 5)) ∧
    utils.RetryWithBackoff (fun _ => some "err") 2 1 5 =
      (Except.error (2, "err"), (List.range 2).map (fun k => min (1 * 2 ^ k) 5)) :=
  ⟨retryWithBackoff_spec.1 String (fun i => if i < 2 then some "err" else none)
      2 1 5 (by decide) (by decide) (by decide) (by decide),
   retryWithBackoff_spec.2.1 String (fun _ => some "err") (fun _ => "err")
      2 1 5 (by decide) (by decide) (fun _ => rfl)⟩

theorem scrollBack_sum (rnd : ℕ → ℚ) (n2 : ℕ) (chunk cur2 : ℚ) :
    (browser.scrollBack rnd n2 chunk cur2).sum = 0 := by
  unfold browser.scrollBack
  split
  · simp
  · simp

theorem scrollChunk_step (rnd : ℕ → ℚ) (hrnd : browser.ValidRnd rnd)
    (deltaY r : ℚ) (n : ℕ) (hd : deltaY ≠ 0) (hsign : 0 < r * deltaY) :
    r - browser.scrollChunk rnd deltaY r n = 0 ∨
    (0 < (r - browser.scrollChunk rnd deltaY r n) * deltaY ∧
     |r - browser.scrollChunk rnd deltaY r n| ≤ |r| - 100) := by
  obtain ⟨hr0, hr1⟩ := hrnd n
  have hdabs : 0 < |deltaY| := abs_pos.mpr hd
  have hm : (0 : ℚ) < 100 + rnd n * 200 := by linarith
  unfold browser.scrollChunk
  set c0 : ℚ := (100 + rnd n * 200) * (deltaY / |deltaY|) with hc0
  have habs0 : |c0| = 100 + rnd n * 200 := by
    rw [hc0, abs_mul, abs_div, abs_abs, div_self (ne_of_gt hdabs),
      abs_of_pos hm, mul_one]
  have h100 : 100 ≤ |c0| := by rw [habs0]; nlinarith
  have hsign0 : 0 < c0 * deltaY := by
    have he : c0 * deltaY = (100 + rnd n * 200) * (deltaY * deltaY / |deltaY|) := by
      rw [hc0]; ring
    have h1 : 0 < deltaY * deltaY := mul_self_pos.mpr hd
    have h2 : 0 < deltaY * deltaY / |deltaY| := div_pos h1 hdabs
    rw [he]
    exact mul_pos hm h2
  by_cases hclip : |r| < |c0|
  · rw [if_pos hclip]; left; ring
  · rw [if_neg hclip]
    push_neg at hclip
    by_cases hz : r - c0 = 0
    · exact Or.inl hz
    · refine Or.inr ⟨?_, ?_⟩
      · rcases hd.lt_or_lt with hneg | hpos
        · have hrneg : r < 0 := by nlinarith
          have hcneg : c0 < 0 := by nlinarith
          rw [abs_of_neg hrneg, abs_of_neg hcneg] at hclip
          have hlt : r - c0 < 0 := lt_of_le_of_ne (by linarith) hz
          exact mul_pos_of_neg_of_neg hlt hneg
        · have hrpos : 0 < r := by nlinarith
          have hcpos : 0 < c0 := by nlinarith
          rw [abs_of_pos hrpos, abs_of_pos hcpos] at hclip
          have hlt : 0 < r - c0 :=
            lt_of_le_of_ne (by linarith) (fun h => hz h.symm)
          exact mul_pos hlt hpos
      · rcases hd.lt_or_lt with hneg | hpos
        · have hrneg : r < 0 := by nlinarith
          have hcneg : c0 < 0 := by nlinarith
          rw [abs_of_neg hrneg, abs_of_neg hcneg] at hclip
          rw [abs_of_neg hcneg] at h100
          rw [abs_of_neg hrneg, abs_of_nonpos (by linarith : r - c0 ≤ 0)]
          linarith
        · have hrpos : 0 < r := by nlinarith
          have hcpos : 0 < c0 := by nlinarith
          rw [abs_of_pos hrpos, abs_of_pos hcpos] at hclip
          rw [abs_of_pos hcpos] at h100
          rw [abs_of_pos hrpos, abs_of_nonneg (by linarith : 0 ≤ r - c0)]
          linarith

theorem humanScrollLoop_zero (rnd : ℕ → ℚ) (deltaY : ℚ) (f n : ℕ) (cur : ℚ) :
    browser.humanScrollLoop rnd deltaY (f + 1) n 0 cur = some [] := by
  unfold browser.humanScrollLoop
  simp

theorem humanScrollLoop_spec (rnd : ℕ → ℚ) (hrnd : browser.ValidRnd rnd)
    (deltaY : ℚ) (hd : deltaY ≠ 0) :
    ∀ (fuel : ℕ) (r : ℚ), (r = 0 ∨ 0 < r * deltaY) →
      (⌊|r| / 100⌋).toNat + 2 ≤ fuel + 1 →
      ∀ (n : ℕ) (cur : ℚ),
        ∃ t, browser.humanScrollLoop rnd deltaY (fuel + 1) n r cur = some t ∧
          (t.map browser.ChunkTrace.chunk).sum = r ∧
          ∀ c ∈ t, c.back.sum = 0 := by
  intro fuel
  induction fuel with
  | zero =>
    intro r hsign hb n cur
    omega
  | succ f ih =>
    intro r hsign hb n cur
    rcases hsign with rfl | hpos
    · exact ⟨[], humanScrollLoop_zero rnd deltaY (f + 1) n cur, by simp, by simp⟩
    have hrne : r ≠ 0 := by
      rintro rfl; simp at hpos
    have habs : 0 < |r| := abs_pos.mpr hrne
    unfold browser.humanScrollLoop
    rw [if_pos habs]
    dsimp only
    rcases scrollChunk_step rnd hrnd deltaY r n hd hpos with hz | ⟨hsign2, habs2⟩
    · rw [hz, humanScrollLoop_zero]
      refine ⟨[⟨browser.scrollChunk rnd deltaY r n,
        browser.scrollSubsteps rnd (n + 1) (browser.scrollChunk rnd deltaY r n),
        browser.scrollBack rnd (n + 1 + 2 * browser.scrollSteps (browser.scrollChunk rnd deltaY r n))
          (browser.scrollChunk rnd deltaY r n) (cur + browser.scrollChunk rnd deltaY r n)⟩],
        rfl, ?_, ?_⟩
      · simp only [List.map_cons, List.map_nil, List.sum_cons, List.sum_nil, add_zero]
        linarith [hz]
      · intro c hc
        simp only [List.mem_singleton] at hc
        subst hc
        exact scrollBack_sum _ _ _ _
    · have hr100 : 100 ≤ |r| := by
        have := abs_nonneg (r - browser.scrollChunk rnd deltaY r n)
        linarith
    -- fuel bound for the recursive call
      have hdiv : |r - browser.scrollChunk rnd deltaY r n| / 100 ≤ |r| / 100 - 1 := by
        linarith
      have hfl1 : ⌊|r - browser.scrollChunk rnd deltaY r n| / 100⌋ ≤ ⌊|r| / 100⌋ - 1 := by
        have hmono := Int.floor_mono hdiv
        rwa [Int.floor_sub_one] at hmono
      have hfl0 : (0 : ℤ) ≤ ⌊|r - browser.scrollChunk rnd deltaY r n| / 100⌋ := by
        refine Int.le_floor.mpr ?_
        positivity
      have hfl2 : (1 : ℤ) ≤ ⌊|r| / 100⌋ := by
        refine Int.le_floor.mpr ?_
        rw [le_div_iff₀ (by norm_num : (0:ℚ) < 100)]
        push_cast
        linarith
      have hb2 : (⌊|r - browser.scrollChunk rnd deltaY r n| / 100⌋).toNat + 2 ≤ f + 1 := by
        omega
      obtain ⟨t', ht', hsum', hback'⟩ := ih (r - browser.scrollChunk rnd deltaY r n)
        (Or.inr hsign2) hb2
        (n + 2 + 2 * browser.scrollSteps (browser.scrollChunk rnd deltaY r n))
        (cur + browser.scrollChunk rnd deltaY r n)
      rw [ht']
      refine ⟨⟨browser.scrollChunk rnd deltaY r n,
        browser.scrollSubsteps rnd (n + 1) (browser.scrollChunk rnd deltaY r n),
        browser.scrollBack rnd (n + 1 + 2 * browser.scrollSteps (browser.scrollChunk rnd deltaY r n))
          (browser.scrollChunk rnd deltaY r n) (cur + browser.scrollChunk rnd deltaY r n)⟩ :: t',
        rfl, ?_, ?_⟩
      · simp only [List.map_cons, List.sum_cons, hsum']
        ring
      · intro c hc
        rcases List.mem_cons.mp hc with rfl | hmem
        · exact scrollBack_sum _ _ _ _
        · exact hback' c hmem

/-- C9: HumanScroll terminates for every finite deltaY on the stated fuel:
when `|deltaY| < 100` it emits a single scroll event and returns, and
otherwise every loop iteration removes at least `min(100, |remaining|)` from
the remaining distance (the final chunk is clipped to exactly the remaining
amount), so the loop finishes within `⌊|deltaY|/100⌋ + 2` iterations. -/
theorem humanScroll_terminates (rnd : ℕ → ℚ) (hrnd : browser.ValidRnd rnd)
    (deltaY : ℚ) :
    ∃ t, browser.HumanScroll rnd (browser.scrollFuel deltaY) deltaY = some t ∧
      (|deltaY| < 100 → t = [⟨deltaY, [deltaY], []⟩]) := by
  unfold browser.HumanScroll
  by_cases hsmall : |deltaY| < 100
  · rw [if_pos hsmall]
    exact ⟨[⟨deltaY, [deltaY], []⟩], rfl, fun _ => rfl⟩
  · rw [if_neg hsmall]
    push_neg at hsmall
    have hd : deltaY ≠ 0 := by
      intro h
      rw [h] at hsmall
      simp at hsmall
      linarith
    have hsign : 0 < deltaY * deltaY := mul_self_pos.mpr hd
    obtain ⟨t, ht, _, _⟩ := humanScrollLoop_spec rnd hrnd deltaY hd
      ((⌊|deltaY| / 100⌋).toNat + 1) deltaY (Or.inr hsign) (by omega) 0 0
    refine ⟨t, ?_, fun h => absurd h (not_lt.mpr hsmall)⟩
    rw [show browser.scrollFuel deltaY = (⌊|deltaY| / 100⌋).toNat + 1 + 1 from by
      unfold browser.scrollFuel; omega]
    exact ht

/-- Witness for C9 at the valid stream 1/2 and deltaY 250. -/
theorem humanScroll_terminates_witness :
    ∃ t, browser.HumanScroll (fun _ => 1/2) (browser.scrollFuel 250) 250 = some t ∧
      (|(250:ℚ)| < 100 → t = [⟨250, [250], []⟩]) :=
  humanScroll_terminates (fun _ => 1/2) (fun n => by norm_num) 250

/-- C1 (amended): for every scroll request with `|deltaY| ≥ 100` the signed
chunk values consumed by the loop sum to exactly deltaY — each scroll-back
micro-correction nets to zero because the back amount and the re-forward
amount cancel, and the final chunk is clipped to the remaining distance so
the chunk decomposition never overshoots.  The actually emitted scroll
events, however, are the chunks' sub-steps with ±20% per-step jitter, whose
signed sum in general differs from deltaY (see the counterexample). -/
theorem humanScroll_chunks_sum (rnd : ℕ → ℚ) (hrnd : browser.ValidRnd rnd)
    (deltaY : ℚ) (h100 : 100 ≤ |deltaY|) :
    ∃ t, browser.HumanScroll rnd (browser.scrollFuel deltaY) deltaY = some t ∧
      (t.map browser.ChunkTrace.chunk).sum = deltaY ∧
      ∀ c ∈ t, c.back.sum = 0 := by
  have hd : deltaY ≠ 0 := by
    intro h
    rw [h] at h100
    simp at h100
    linarith
  have hsign : 0 < deltaY * deltaY := mul_self_pos.mpr hd
  obtain ⟨t, ht, hsum, hback⟩ := humanScrollLoop_spec rnd hrnd deltaY hd
    ((⌊|deltaY| / 100⌋).toNat + 1) deltaY (Or.inr hsign) (by omega) 0 0
  refine ⟨t, ?_, hsum, hback⟩
  unfold browser.HumanScroll
  rw [if_neg (not_lt.mpr h100),
    show browser.scrollFuel deltaY = (⌊|deltaY| / 100⌋).toNat + 1 + 1 from by
      unfold browser.scrollFuel; omega]
  exact ht

/-- Witness for C1's amended statement at the valid stream 1/2 and
deltaY 150. -/
theorem humanScroll_chunks_sum_witness :
    ∃ t, browser.HumanScroll (fun _ => 1/2) (browser.scrollFuel 150) 150 = some t ∧
      (t.map browser.ChunkTrace.chunk).sum = 150 ∧
      ∀ c ∈ t, c.back.sum = 0 :=
  humanScroll_chunks_sum (fun _ => 1/2) (fun n => by norm_num) 150
    (by rw [abs_of_pos (by norm_num : (0:ℚ) < 150)]; norm_num)

/-- Counterexample to C1 as stated: at the valid random stream that always
draws 0 and deltaY = 100, the loop consumes a single chunk of 100 but emits
ten sub-steps of size `10 * 0.8 = 8`, so the signed sum of the emitted
scroll events is 80, not the requested 100. -/
theorem humanScroll_emitted_sum_ne_delta :
    (browser.HumanScroll (fun _ => 0) (browser.scrollFuel 100) 100).map
        (fun t => (browser.traceEvents t).sum) = some 80 ∧
    (80 : ℚ) ≠ 100 := by
  constructor
  · have habs100 : |(100 : ℚ)| = 100 := abs_of_pos (by norm_num)
    have hfuel : browser.scrollFuel 100 = 3 := by
      unfold browser.scrollFuel
      rw [habs100]
      norm_num
    have hc : browser.scrollChunk (fun _ => 0) 100 100 0 = 100 := by
      unfold browser.scrollChunk
      rw [habs100]
      norm_num
    have hs : browser.scrollSteps (100 : ℚ) = 10 := by
      unfold browser.scrollSteps
      rw [habs100]
      norm_num
      rfl
    have hsub : browser.scrollSubsteps (fun _ => 0) 1 (100 : ℚ) =
        List.replicate 10 8 := by
      unfold browser.scrollSubsteps
      rw [hs]
      norm_num
    have hback : ∀ m : ℕ, browser.scrollBack (fun _ => 0) m 100 (0 + 100) = [] := by
      intro m
      unfold browser.scrollBack
      rw [show (0 : ℚ) + 100 = 100 from by norm_num, habs100]
      norm_num
    have hloop : browser.humanScrollLoop (fun _ => 0) 100 3 0 100 0 =
        some [⟨100, List.replicate 10 8, []⟩] := by
      rw [show (3 : ℕ) = 2 + 1 from rfl]
      unfold browser.humanScrollLoop
      rw [if_pos (by rw [habs100]; norm_num : (0:ℚ) < |(100:ℚ)|)]
      dsimp only
      rw [hc, hs]
      rw [show (100 : ℚ) - 100 = 0 from by norm_num]
      rw [show (2 : ℕ) = 1 + 1 from rfl, humanScrollLoop_zero]
      rw [hsub, hback]
    rw [hfuel]
    unfold browser.HumanScroll
    rw [if_neg (by rw [habs100]; norm_num), hloop]
    simp [browser.traceEvents, browser.ChunkTrace.events, List.sum_replicate]
    norm_num
  · norm_num

/-- C6: every duration d produced by the jittered-delay function
`SleepWithJitter` with (non-negative) base b and (non-negative) deviation
fraction f satisfies `b*(1-f) ≤ d ≤ b*(1+f)` and `d ≥ 0` — the lower bound of
the sampling interval is clamped to non-negative. -/
theorem sleepWithJitter_within_bounds (sampler : ℤ → ℤ)
    (hs : stealth.ValidSampler sampler) (base : ℤ) (f : ℚ)
    (hb : 0 ≤ base) (hf : 0 ≤ f) :
    ∃ d : ℤ, stealth.SleepWithJitter sampler base f = Except.ok d ∧
      (base : ℚ) * (1 - f) ≤ (d : ℚ) ∧ (d : ℚ) ≤ (base : ℚ) * (1 + f) ∧
      0 ≤ d := by
  have hnotneg : ¬ (f < 0) := not_lt.mpr hf
  have hprod : (0 : ℚ) ≤ (base : ℚ) * f := by positivity
  have hdle : ((⌊(base : ℚ) * f⌋ : ℤ) : ℚ) ≤ (base : ℚ) * f := Int.floor_le _
  have hdnn : 0 ≤ ⌊(base : ℚ) * f⌋ := Int.le_floor.mpr (by exact_mod_cast hprod)
  have heq : stealth.SleepWithJitter sampler base f =
      stealth.RandomDuration sampler
        (if base - ⌊(base : ℚ) * f⌋ < 0 then 0 else base - ⌊(base : ℚ) * f⌋)
        (base + ⌊(base : ℚ) * f⌋) := by
    unfold stealth.SleepWithJitter goTrunc
    simp [hnotneg, hprod]
  set delta : ℤ := ⌊(base : ℚ) * f⌋ with hdelta
  set mn : ℤ := if base - delta < 0 then 0 else base - delta with hmn
  have hmn_nonneg : 0 ≤ mn := by
    rw [hmn]; split <;> omega
  have hmnmx : mn ≤ base + delta := by
    rw [hmn]; split <;> omega
  obtain ⟨d, hd, hd1, hd2⟩ := randomDuration_mem sampler hs mn (base + delta) hmnmx
  refine ⟨d, heq.trans hd, ?_, ?_, by omega⟩
  · have h1 : (base : ℚ) * (1 - f) ≤ ((base - delta : ℤ) : ℚ) := by
      push_cast
      nlinarith [hdle]
    have h2 : (mn : ℚ) ≤ (d : ℚ) := by exact_mod_cast hd1
    by_cases hc : base - delta < 0
    · rw [hmn, if_pos hc] at h2
      have h0 : ((base - delta : ℤ) : ℚ) ≤ 0 := by exact_mod_cast le_of_lt hc
      push_cast at h2
      linarith
    · rw [hmn, if_neg hc] at h2
      push_cast at h2
      push_cast at h1
      linarith
  · have h3 : (d : ℚ) ≤ ((base + delta : ℤ) : ℚ) := by exact_mod_cast hd2
    have h4 : ((base + delta : ℤ) : ℚ) ≤ (base : ℚ) * (1 + f) := by
      push_cast
      nlinarith [hdle]
    linarith

/-- Witness for C6 at base 100ns, deviation 1/2, sampler n/2. -/
theorem sleepWithJitter_within_bounds_witness :
    ∃ d : ℤ, stealth.SleepWithJitter (fun n => n / 2) 100 (1/2) = Except.ok d ∧
      (100 : ℚ) * (1 - 1/2) ≤ (d : ℚ) ∧ (d : ℚ) ≤ (100 : ℚ) * (1 + 1/2) ∧
      0 ≤ d :=
  sleepWithJitter_within_bounds (fun n => n / 2)
    (fun n hn => by dsimp only; omega)
    100 (1/2) (by norm_num) (by norm_num)

/-- C10: the delay primitives are total.  `RandomDuration` returns `min`
without consulting the sampler whenever `min ≥ max`, so the sampler's
positive-range precondition is never violated; `SleepWithJitter` (any base,
any deviation — negative deviation is clamped to 0) and `SleepContextual`
(any action kind, any intensity) always return a value, never a panic. -/
theorem delay_primitives_never_panic :
    (∀ (sampler : ℤ → ℤ) (mn mx : ℤ), mx ≤ mn →
      stealth.RandomDuration sampler mn mx = Except.ok mn) ∧
    (∀ (sampler : ℤ → ℤ) (base : ℤ) (deviation : ℚ),
      (stealth.SleepWithJitter sampler base deviation).isOk = true) ∧
    (∀ (sampler : ℤ → ℤ) (action : String) (intensity : ℚ),
      (stealth.SleepContextual sampler action intensity).isOk = true) := by
  refine ⟨?_, ?_, ?_⟩
  · intro sampler mn mx h
    unfold stealth.RandomDuration
    simp [h]
  · intro sampler base deviation
    unfold stealth.SleepWithJitter
    exact randomDuration_isOk _ _ _
  · intro sampler action intensity
    unfold stealth.SleepContextual
    exact randomDuration_isOk _ _ _

/-- Witness for C10: the degenerate-range branch at min 5, max 3, plus retotality at concrete inputs. -/
theorem delay_primitives_never_panic_witness :
    stealth.RandomDuration (fun _ => 0) 5 3 = Except.ok 5 ∧
    (stealth.SleepWithJitter (fun _ => 0) 100 (-1/2)).isOk = true ∧
    (stealth.SleepContextual (fun _ => 0) "unknown-kind" (-3)).isOk = true :=
  ⟨delay_primitives_never_panic.1 (fun _ => 0) 5 3 (by norm_num),
   delay_primitives_never_panic.2.1 (fun _ => 0) 100 (-1/2),
   delay_primitives_never_panic.2.2 (fun _ => 0) "unknown-kind" (-3)⟩


theorem asString_toList (s : String) : s.toList.asString = s := by
  cases s
  rfl

theorem humanTypeLoop_no_typo (rndF : ℕ → ℚ) (rndI : ℕ → ℕ) (wcFuel : ℕ)
    (h : ∀ m, 1/20 ≤ rndF m) :
    ∀ (chars : List Char) (f k : ℕ),
      browser.humanTypeLoop rndF rndI wcFuel chars f k =
        some (chars.map browser.TypeEvent.insert) := by
  intro chars
  induction chars with
  | nil => intro f k; rfl
  | cons c rest ih =>
    intro f k
    unfold browser.humanTypeLoop
    rw [if_neg (not_lt.mpr (h f)), ih (f + 1) k]
    rfl

/-- C8: for every input string, when the typo branch is never taken (every
typo-check draw is at least the 5% typo rate), HumanType emits exactly one
insert event per character, in order, and their concatenation reconstructs
the original string exactly. -/
theorem humanType_no_typo (rndF : ℕ → ℚ) (rndI : ℕ → ℕ) (wcFuel : ℕ)
    (text : String) (h : ∀ m, 1/20 ≤ rndF m) :
    browser.HumanType rndF rndI wcFuel true text =
      some (Except.ok (text.toList.map browser.TypeEvent.insert)) ∧
    (text.toList.map browser.TypeEvent.insert).length = text.length ∧
    ((text.toList.map browser.TypeEvent.insert).filterMap
        (fun e => match e with
          | browser.TypeEvent.insert c => some c
          | browser.TypeEvent.backspace => none)).asString = text := by
  refine ⟨?_, by rw [List.length_map]; rfl, ?_⟩
  · unfold browser.HumanType
    rw [humanTypeLoop_no_typo rndF rndI wcFuel h]
    rfl
  · rw [List.filterMap_map]
    have hcomp : ∀ l : List Char,
        (l.filterMap ((fun e => match e with
          | browser.TypeEvent.insert c => some c
          | browser.TypeEvent.backspace => none) ∘ browser.TypeEvent.insert)) = l := by
      intro l
      induction l with
      | nil => rfl
      | cons c rest ih => simp [List.filterMap_cons, ih, Function.comp]
    rw [hcomp, asString_toList]

/-- Witness for C8 at the always-1/2 float stream and the text "hi there". -/
theorem humanType_no_typo_witness :
    browser.HumanType (fun _ => 1/2) (fun _ => 0) 1 true "hi there" =
      some (Except.ok ("hi there".toList.map browser.TypeEvent.insert)) ∧
    ("hi there".toList.map browser.TypeEvent.insert).length = "hi there".length ∧
    (("hi there".toList.map browser.TypeEvent.insert).filterMap
        (fun e => match e with
          | browser.TypeEvent.insert c => some c
          | browser.TypeEvent.backspace => none)).asString = "hi there" :=
  humanType_no_typo (fun _ => 1/2) (fun _ => 0) 1 "hi there"
    (fun m => by norm_num)


/-- C3: when sentCount already equals DailyLimit, SendConnectionRequest
fails immediately with the daily-limit error, performs no browser
interaction (empty trace), and leaves the service state unchanged. -/
theorem sendConnectionRequest_at_limit (o : connect.ConnOracle)
    (s : connect.Service) (url tmpl : String)
    (h : s.sentCount = s.dailyLimit) :
    connect.SendConnectionRequest o s url tmpl =
      (Except.error (connect.ConnErr.dailyLimitReached s.dailyLimit), s, []) := by
  unfold connect.SendConnectionRequest
  rw [if_pos (by omega)]

/-- Witness for C3 at a concrete oracle and a service at its limit. -/
theorem sendConnectionRequest_at_limit_witness :
    connect.SendConnectionRequest
      ⟨true, false, fun _ => false, fun _ => false, fun _ => false, "", false,
        none⟩
      ⟨20, 20⟩ "https://www.linkedin.com/in/someone" "hello" =
      (Except.error (connect.ConnErr.dailyLimitReached 20), ⟨20, 20⟩, []) :=
  sendConnectionRequest_at_limit _ _ _ _ rfl

theorem tryFallbacks_state (o : connect.ConnOracle) (s : connect.Service)
    (msg : String) :
    (connect.tryFallbacks o s msg).2.1.dailyLimit = s.dailyLimit ∧
    s.sentCount ≤ (connect.tryFallbacks o s msg).2.1.sentCount ∧
    (connect.tryFallbacks o s msg).2.1.sentCount ≤ s.sentCount + 1 := by
  unfold connect.tryFallbacks
  dsimp only
  repeat' split
  all_goals exact ⟨rfl, by simp, by simp⟩

theorem tryFallbacksWith_state (o : connect.ConnOracle) (s : connect.Service)
    (msg : String) (evs : List Ev) :
    (connect.tryFallbacksWith o s msg evs).2.1.dailyLimit = s.dailyLimit ∧
    s.sentCount ≤ (connect.tryFallbacksWith o s msg evs).2.1.sentCount ∧
    (connect.tryFallbacksWith o s msg evs).2.1.sentCount ≤ s.sentCount + 1 :=
  tryFallbacks_state o s msg

theorem sendAfterConnectClick_state (o : connect.ConnOracle)
    (s : connect.Service) (tmpl : String) (evs : List Ev) :
    (connect.sendAfterConnectClick o s tmpl evs).2.1.dailyLimit = s.dailyLimit ∧
    s.sentCount ≤ (connect.sendAfterConnectClick o s tmpl evs).2.1.sentCount ∧
    (connect.sendAfterConnectClick o s tmpl evs).2.1.sentCount ≤ s.sentCount + 1 := by
  unfold connect.sendAfterConnectClick
  dsimp only
  repeat' split
  all_goals exact ⟨rfl, by simp, by simp⟩

theorem sendConnectionRequest_guard (o : connect.ConnOracle)
    (s : connect.Service) (url tmpl : String)
    (hle : s.dailyLimit ≤ s.sentCount) :
    connect.SendConnectionRequest o s url tmpl =
      (Except.error (connect.ConnErr.dailyLimitReached s.dailyLimit), s, []) := by
  unfold connect.SendConnectionRequest
  rw [if_pos hle]

/-- C4: the invariant sentCount ≤ DailyLimit is preserved by every call to
SendConnectionRequest from any state satisfying it: the precondition check
guards every incrementing path (including the fallback Follow and fallback
Message paths), the limit itself never changes, and each call increments
sentCount at most once. -/
theorem sendConnectionRequest_invariant (o : connect.ConnOracle)
    (s : connect.Service) (url tmpl : String)
    (h : s.sentCount ≤ s.dailyLimit) :
    (connect.SendConnectionRequest o s url tmpl).2.1.sentCount ≤
      (connect.SendConnectionRequest o s url tmpl).2.1.dailyLimit ∧
    (connect.SendConnectionRequest o s url tmpl).2.1.dailyLimit = s.dailyLimit ∧
    (connect.SendConnectionRequest o s url tmpl).2.1.sentCount ≤
      s.sentCount + 1 := by
  rcases lt_or_ge s.sentCount s.dailyLimit with hlt | hge
  · have hB : (connect.SendConnectionRequest o s url tmpl).2.1.dailyLimit = s.dailyLimit ∧
        s.sentCount ≤ (connect.SendConnectionRequest o s url tmpl).2.1.sentCount ∧
        (connect.SendConnectionRequest o s url tmpl).2.1.sentCount ≤ s.sentCount + 1 := by
      unfold connect.SendConnectionRequest
      dsimp only
      repeat' split
      all_goals first
        | exact ⟨rfl, by simp, by simp⟩
        | exact sendAfterConnectClick_state o s tmpl _
        | exact tryFallbacksWith_state o s tmpl _
    obtain ⟨h1, h2, h3⟩ := hB
    exact ⟨by omega, h1, h3⟩
  · rw [sendConnectionRequest_guard o s url tmpl hge]
    exact ⟨h, rfl, by show s.sentCount ≤ s.sentCount + 1; omega⟩

/-- Witness for C4 at a concrete oracle and a state strictly below the
limit. -/
theorem sendConnectionRequest_invariant_witness :
    (connect.SendConnectionRequest
      ⟨true, false, fun _ => true, fun _ => true, fun _ => true, "", false,
        none⟩ ⟨20, 3⟩ "https://www.linkedin.com/in/someone" "hello").2.1.sentCount ≤
      (connect.SendConnectionRequest
      ⟨true, false, fun _ => true, fun _ => true, fun _ => true, "", false,
        none⟩ ⟨20, 3⟩ "https://www.linkedin.com/in/someone" "hello").2.1.dailyLimit ∧
    (connect.SendConnectionRequest
      ⟨true, false, fun _ => true, fun _ => true, fun _ => true, "", false,
        none⟩ ⟨20, 3⟩ "https://www.linkedin.com/in/someone" "hello").2.1.dailyLimit = 20 ∧
    (connect.SendConnectionRequest
      ⟨true, false, fun _ => true, fun _ => true, fun _ => true, "", false,
        none⟩ ⟨20, 3⟩ "https://www.linkedin.com/in/someone" "hello").2.1.sentCount ≤ 3 + 1 :=
  sendConnectionRequest_invariant _ _ _ _ (by norm_num)


/-- Counterexample to C2 as stated: with credentials missing and a page that
is not already logged in, Login does return the missing-credentials error,
but only after navigating to the feed and querying the logged-in indicator —
the claim's "without navigating" is false on the code, which checks
credentials only after the session probe. -/
theorem login_missing_creds_navigates_first :
    (auth.Login
        ⟨true, false, true, false, false, false, false, false, false, false,
          false, false, fun _ => false, fun _ => false, false, "",
          fun _ => ""⟩ "" "").1 = Except.error auth.LoginErr.credsMissing ∧
    Ev.navigate auth.feedURL ∈
      (auth.Login
        ⟨true, false, true, false, false, false, false, false, false, false,
          false, false, fun _ => false, fun _ => false, false, "",
          fun _ => ""⟩ "" "").2 := by
  constructor
  · rfl
  · decide

/-- C2 (amended): when credentials are missing and the session is not already
logged in (and the initial feed navigation succeeds), Login returns the
missing-credentials precondition error before any credential entry — no
synthetic input (typing, clicking, key presses, pointer moves) is ever
dispatched — though it first navigates to the feed, queries the logged-in
indicator and the username input, and possibly navigates to the login
page. -/
theorem login_missing_creds_fails_before_input (o : auth.LoginOracle)
    (user pass : String) (hcred : user = "" ∨ pass = "")
    (hnav : o.navFeedOk = true) (hno : o.hasNav = false) :
    (auth.Login o user pass).1 = Except.error auth.LoginErr.credsMissing ∧
    ∀ e ∈ (auth.Login o user pass).2, e.isInput = false := by
  unfold auth.Login
  dsimp only
  rw [if_neg (show ¬ ¬ o.navFeedOk = true from by simp [hnav]),
    if_neg (show ¬ o.hasNav = true from by simp [hno]),
    if_pos hcred]
  refine ⟨rfl, ?_⟩
  intro e he
  have he4 : e = Ev.navigate auth.feedURL ∨ e = Ev.query auth.loggedInSel ∨
      e = Ev.query "#username" ∨ e = Ev.navigate auth.loginURL := by
    by_cases hu : o.hasUsername <;> simp only [hu] at he <;> simp at he <;> tauto
  rcases he4 with rfl | rfl | rfl | rfl <;> rfl

/-- Witness for C2's amended statement at a concrete oracle with empty
username. -/
theorem login_missing_creds_fails_before_input_witness :
    (auth.Login
        ⟨true, false, false, true, false, true, true, true, false, true, true,
          true, fun _ => true, fun _ => false, false, "", fun _ => ""⟩
        "" "secret").1 = Except.error auth.LoginErr.credsMissing ∧
    ∀ e ∈ (auth.Login
        ⟨true, false, false, true, false, true, true, true, false, true, true,
          true, fun _ => true, fun _ => false, false, "", fun _ => ""⟩
        "" "secret").2, e.isInput = false :=
  login_missing_creds_fails_before_input _ "" "secret" (Or.inl rfl) rfl rfl


theorem scrapeAnchors_invariant :
    ∀ (hrefs : List (Option String)) (seen results : List String),
      results.Nodup → (∀ r ∈ results, r ∈ seen) →
      (search.scrapeAnchors hrefs seen results).2.Nodup ∧
      (∀ r ∈ (search.scrapeAnchors hrefs seen results).2,
        r ∈ (search.scrapeAnchors hrefs seen results).1) := by
  intro hrefs
  induction hrefs with
  | nil => intro seen results hnd hsub; exact ⟨hnd, hsub⟩
  | cons h rest ih =>
    intro seen results hnd hsub
    match h with
    | none => exact ih seen results hnd hsub
    | some val =>
      unfold search.scrapeAnchors
      by_cases hp : search.isProfileHref val
      · rw [if_pos hp]
        by_cases hs : seen.contains (search.cleanProfileURL val)
        · rw [if_pos hs]
          exact ih seen results hnd hsub
        · rw [if_neg hs]
          have hnotseen : search.cleanProfileURL val ∉ seen := by
            simpa using hs
          refine ih _ _ ?_ ?_
          · simp only [List.nodup_append, List.nodup_cons, List.nodup_nil,
              List.not_mem_nil, not_false_eq_true, and_true, true_and]
            refine ⟨hnd, ?_⟩
            intro x hx hx2
            simp only [List.mem_singleton] at hx2
            exact hnotseen (hx2 ▸ hsub x hx)
          · intro r hr
            rcases List.mem_append.mp hr with hr | hr
            · exact List.mem_cons_of_mem _ (hsub r hr)
            · simp only [List.mem_singleton] at hr
              exact hr ▸ List.mem_cons_self _ _
      · rw [if_neg hp]
        exact ih seen results hnd hsub

theorem searchLoop_nodup (o : search.SearchOracle) :
    ∀ (left page : ℕ) (seen results : List String),
      results.Nodup → (∀ r ∈ results, r ∈ seen) →
      (search.searchLoop o left page seen results).Nodup := by
  intro left
  induction left with
  | zero => intro page seen results hnd _; exact hnd
  | succ l ih =>
    intro page seen results hnd hsub
    unfold search.searchLoop
    by_cases he : o.elementsOk page
    · rw [if_pos he]
      obtain ⟨h1, h2⟩ := scrapeAnchors_invariant (o.anchors page) seen results hnd hsub
      split
      · exact h1
      · split
        · exact h1
        · split
          · exact h1
          · exact ih _ _ _ h1 h2
    · rw [if_neg he]
      split
      · exact hnd
      · split
        · exact hnd
        · split
          · exact hnd
          · exact ih _ _ _ hnd hsub

/-- C7: the search scraper on a page exposing 3 distinct profile anchors and
one mini-profile anchor with maxPages = 1 returns exactly the 3 profile URLs
in discovery order: the mini-profile link is excluded, each URL is
query-stripped and normalized to absolute form by `cleanProfileURL`, and the
seen-set guarantees the result list of every search is duplicate-free. -/
theorem searchPeople_scenario :
    (∀ (o : search.SearchOracle) (c : search.Criteria) (mp : ℕ)
        (l : List String),
      (search.SearchPeople o c mp).1 = Except.ok l → l.Nodup) ∧
    (∀ (o : search.SearchOracle) (c : search.Criteria) (a1 a2 a3 m : String),
      o.navigateOk = true → o.elementsOk 1 = true →
      o.anchors 1 = [some a1, some a2, some a3, some m] →
      search.isProfileHref a1 = true → search.isProfileHref a2 = true →
      search.isProfileHref a3 = true →
      goContains m "/mini-profile/" = true →
      search.cleanProfileURL a1 ≠ search.cleanProfileURL a2 →
      search.cleanProfileURL a1 ≠ search.cleanProfileURL a3 →
      search.cleanProfileURL a2 ≠ search.cleanProfileURL a3 →
      (search.SearchPeople o c 1).1 =
        Except.ok [search.cleanProfileURL a1, search.cleanProfileURL a2,
          search.cleanProfileURL a3]) := by
  constructor
  · intro o c mp l hok
    unfold search.SearchPeople at hok
    dsimp only at hok
    by_cases hn : o.navigateOk
    · rw [if_neg (by simp [hn])] at hok
      dsimp only at hok
      obtain rfl : search.searchLoop o mp 1 [] [] = l := by
        exact (Except.ok.injEq _ _).mp hok
      exact searchLoop_nodup o mp 1 [] [] List.nodup_nil (by simp)
    · rw [if_pos (by simp [hn])] at hok
      exact absurd hok (by simp)
  · intro o c a1 a2 a3 m hnav helem hanch hp1 hp2 hp3 hm h12 h13 h23
    have hmfalse : search.isProfileHref m = false := by
      unfold search.isProfileHref
      rw [hm]
      simp
    have hscrape : search.scrapeAnchors [some a1, some a2, some a3, some m] [] [] =
        ([search.cleanProfileURL a3, search.cleanProfileURL a2,
          search.cleanProfileURL a1],
         [search.cleanProfileURL a1, search.cleanProfileURL a2,
          search.cleanProfileURL a3]) := by
      unfold search.scrapeAnchors
      rw [hp1]
      simp only [if_true]
      rw [if_neg (by simp)]
      unfold search.scrapeAnchors
      rw [hp2]
      simp only [if_true]
      rw [if_neg (by simp [Ne.symm h12])]
      unfold search.scrapeAnchors
      rw [hp3]
      simp only [if_true]
      rw [if_neg (by simp [Ne.symm h13, Ne.symm h23])]
      unfold search.scrapeAnchors
      rw [hmfalse]
      simp only [Bool.false_eq_true, if_false]
      unfold search.scrapeAnchors
      simp
    unfold search.SearchPeople
    dsimp only
    rw [if_neg (by simp [hnav])]
    dsimp only
    unfold search.searchLoop
    rw [if_pos helem, hanch, hscrape]
    simp

/-- Witness for C7: three concrete anchors (one relative with a query string,
one absolute, one plain relative) and one mini-profile anchor. -/
theorem searchPeople_scenario_witness :
    (search.SearchPeople
      ⟨true, fun _ => true,
        fun p => if p = 1 then
          [some "/in/alice?miniProfileUrn=abc",
           some "https://www.linkedin.com/in/bob",
           some "/in/carol", some "/search/mini-profile/zed"] else [],
        fun _ => false, fun _ => false⟩
      ⟨"Software Engineer", "", "", ""⟩ 1).1 =
      Except.ok [search.cleanProfileURL "/in/alice?miniProfileUrn=abc",
        search.cleanProfileURL "https://www.linkedin.com/in/bob",
        search.cleanProfileURL "/in/carol"] :=
  searchPeople_scenario.2 _ _ "/in/alice?miniProfileUrn=abc"
    "https://www.linkedin.com/in/bob" "/in/carol" "/search/mini-profile/zed"
    rfl rfl rfl (by decide) (by decide) (by decide) (by decide)
    (by decide) (by decide) (by decide)

end LinkedinBot
